import Mathlib

/-!
# Verification of the betalpha Minecraft Beta 1.7.3 server core

Shallow embedding of the parts of the `betalpha` server relevant to the
frozen claims, together with theorems settling each claim.

Conventions of the embedding:
* Rust machine integers are modelled as `Nat` / `Int` with explicit bounds
  or `% 2^w` where wrap-around matters.
* `f32` / `f64` values are carried opaquely as their big-endian bit
  patterns (a `Nat`); no claim depends on floating-point arithmetic.
* Rust `String`s produced by the lossy UTF-8 reader are carried as the raw
  byte list that was consumed; no claim inspects decoded characters.
* Fallible Rust functions returning `Result<T, E>` become functions
  returning `Except E T`; readers that mutate a `Cursor` additionally
  return the cursor state after the call (also on the error path, since
  one claim is about the cursor position after a failed read).
-/

namespace Betalpha


/-- Error type of the packet codec (`src/packet`, declaration only; the
variants used by `src/byte_man.rs` and `src/main.rs`). -/
inductive PacketError where
  | NotEnoughBytes : PacketError
  | InvalidPacketID : Nat → PacketError
  | InvalidInput : PacketError
deriving DecidableEq, Repr

/-- `std::io::Cursor<&[u8]>`: a byte slice together with a read position. -/
structure Cursor where
  data : List Nat
  pos : Nat
deriving DecidableEq, Repr

namespace Cursor

/-- `bytes::Buf::remaining` for a cursor over a slice. -/
def remaining (c : Cursor) : Nat := c.data.length - c.pos

/-- The byte `i` places after the read position (0 when out of range;
only used after a length pre-check). -/
def byteAt (c : Cursor) (i : Nat) : Nat := c.data.getD (c.pos + i) 0

/-- Advance the read position by `n`. -/
def advance (c : Cursor) (n : Nat) : Cursor := { c with pos := c.pos + n }

end Cursor

/-- `byte_man::get_u8`: fails when no byte remains, else consumes one byte. -/
def get_u8 (src : Cursor) : Except PacketError Nat × Cursor :=
  if src.remaining = 0 then (.error .NotEnoughBytes, src)
  else (.ok (src.byteAt 0), src.advance 1)

/-- `byte_man::peek_u8`: like `get_u8` but never consumes. -/
def peek_u8 (src : Cursor) : Except PacketError Nat × Cursor :=
  if src.remaining = 0 then (.error .NotEnoughBytes, src)
  else (.ok (src.byteAt 0), src)

/-- `byte_man::get_i8`: one byte, reinterpreted as a signed i8. -/
def get_i8 (src : Cursor) : Except PacketError Int × Cursor :=
  if src.remaining = 0 then (.error .NotEnoughBytes, src)
  else
    let b := src.byteAt 0
    (.ok (if b < 128 then (b : Int) else (b : Int) - 256), src.advance 1)

/-- `byte_man::get_u16`: NOTE: the source pre-checks `remaining() < 4`
although `Buf::get_u16` consumes only two bytes; the embedding is faithful
to that check.  On success it consumes two bytes, big-endian. -/
def get_u16 (src : Cursor) : Except PacketError Nat × Cursor :=
  if src.remaining < 4 then (.error .NotEnoughBytes, src)
  else (.ok (src.byteAt 0 * 256 + src.byteAt 1), src.advance 2)

/-- Big-endian value of the `n` bytes at the read position. -/
def Cursor.beNat (c : Cursor) (n : Nat) : Nat :=
  (List.range n).foldl (fun acc i => acc * 256 + c.byteAt i) 0

/-- `byte_man::get_i32`: four bytes big-endian, reinterpreted as i32. -/
def get_i32 (src : Cursor) : Except PacketError Int × Cursor :=
  if src.remaining < 4 then (.error .NotEnoughBytes, src)
  else
    let v := src.beNat 4
    (.ok (if v < 2 ^ 31 then (v : Int) else (v : Int) - 2 ^ 32), src.advance 4)

/-- `byte_man::get_f32`: four bytes; the f32 is carried as its bit pattern. -/
def get_f32 (src : Cursor) : Except PacketError Nat × Cursor :=
  if src.remaining < 4 then (.error .NotEnoughBytes, src)
  else (.ok (src.beNat 4), src.advance 4)

/-- `byte_man::get_f64`: eight bytes; the f64 is carried as its bit pattern. -/
def get_f64 (src : Cursor) : Except PacketError Nat × Cursor :=
  if src.remaining < 8 then (.error .NotEnoughBytes, src)
  else (.ok (src.beNat 8), src.advance 8)

/-- `byte_man::get_u64`: eight bytes big-endian. -/
def get_u64 (src : Cursor) : Except PacketError Nat × Cursor :=
  if src.remaining < 8 then (.error .NotEnoughBytes, src)
  else (.ok (src.beNat 8), src.advance 8)

/-- `byte_man::skip`: advance by `n` after a length pre-check. -/
def skip (src : Cursor) (n : Nat) : Except PacketError Unit × Cursor :=
  if src.remaining < n then (.error .NotEnoughBytes, src)
  else (.ok (), src.advance n)

/-- `byte_man::get_string`: u16 length prefix via `get_u16`, then that many
bytes (lossy UTF-8 decoding abstracted: the value is the raw byte list). -/
def get_string (src : Cursor) : Except PacketError (List Nat) × Cursor :=
  match get_u16 src with
  | (.error e, c) => (.error e, c)
  | (.ok len, c) =>
    if c.remaining < len then (.error .NotEnoughBytes, c)
    else
      let s := (c.data.drop c.pos).take len
      match skip c len with
      | (.error e, c2) => (.error e, c2)
      | (.ok _, c2) => (.ok s, c2)

/-! ## World and chunks (`src/world.rs`) -/

/-- The `World` resource; only the field the claims touch (`time`) is
carried, the remaining fields (path, chunk cache, seed, spawn, sizes) are
not read by any claim. -/
structure World where
  time : Nat
deriving DecidableEq, Repr

/-- `World::get_time`. -/
def World.get_time (w : World) : Nat := w.time

/-- `World::set_time`: stores `time`, then subtracts 24000 once when
`time >= 24000`. -/
def World.set_time (w : World) (time : Nat) : World :=
  let w' := { w with time := time }
  if time ≥ 24000 then { w' with time := w'.time - 24000 } else w'

/-- The in-memory chunk: coordinates, flags and the five byte arrays. -/
structure Chunk where
  chunk_x : Int
  chunk_z : Int
  terrain_populated : Bool
  last_update : Nat
  blocks : List Nat
  data : List Nat
  block_light : List Nat
  sky_light : List Nat
  height_map : List Nat
deriving DecidableEq, Repr

/-- The index computed by `Chunk::get_block` / `Chunk::set_block`:
`y + (z * 128 + x * 128 * 16)` (all operands are u8 widened to i32, so no
overflow or sign issues occur for u8 inputs). -/
def block_index (x y z : Nat) : Nat := y + (z * 128 + x * 128 * 16)

/-- `Chunk::get_block`: `blocks.get(index).copied()`. -/
def Chunk.get_block (c : Chunk) (x y z : Nat) : Option Nat :=
  c.blocks[block_index x y z]?

/-- `Chunk::set_block`: `blocks.get_mut(index).map(|v| ...)` — overwrite
in bounds and return the previous value, `None` (and no change) out of
bounds. -/
def Chunk.set_block (c : Chunk) (x y z v : Nat) : Option Nat × Chunk :=
  match c.blocks[block_index x y z]? with
  | some old => (some old, { c with blocks := c.blocks.set (block_index x y z) v })
  | none => (none, c)

/-- A concrete all-zero chunk used by the C6 witness. -/
def chunkEx : Chunk := ⟨0, 0, false, 0, List.replicate 32768 0, [], [], [], []⟩

/-! ## Chunk file paths (`src/util.rs`, `Chunk::load`, `Chunk::save`) -/

/-- `util::BASE36_DIGITS`: the source's literal 36-character array
`'0'..'9'` (codes 48–57) followed by `'a'..'z'` (codes 97–122). -/
def base36Digits : List Char :=
  (List.range 10).map (fun i => Char.ofNat (48 + i)) ++
    (List.range 26).map (fun i => Char.ofNat (97 + i))

/-- Digit loop of `util::base36_from_u64` (the source pushes low digits
and reverses; this recursion produces the same most-significant-first
digit list).  The first argument is fuel bounding the digit count so the
definition is structural; `natDigitsBase36` instantiates it with `n`,
which always suffices since `n / 36 < n`. -/
def natDigitsBase36Aux : Nat → Nat → List Char
  | 0, _ => []
  | fuel + 1, n =>
    if n = 0 then []
    else natDigitsBase36Aux fuel (n / 36) ++ [base36Digits.getD (n % 36) '0']

def natDigitsBase36 (n : Nat) : List Char := natDigitsBase36Aux n n

/-- `util::base36_from_u64`. -/
def base36_from_u64 (n : Nat) : String :=
  if n = 0 then "0" else ⟨natDigitsBase36 n⟩

/-- `util::base36_from_i32`: leading `-` for negatives, then the base-36
form of the absolute value. -/
def base36_from_i32 (x : Int) : String :=
  (if x < 0 then "-" else "") ++ base36_from_u64 x.natAbs

/-- Modelled from the spec: Rust's built-in decimal `Display` formatting
for integers, which `Chunk::save` invokes on the raw `i32` coordinates in
`format!("c.{x_string}.{z_string}.dat")`.  Same digit-loop shape as base
36 with radix 10. -/
def natDigitsBase10Aux : Nat → Nat → List Char
  | 0, _ => []
  | fuel + 1, n =>
    if n = 0 then []
    else natDigitsBase10Aux fuel (n / 10) ++ [base36Digits.getD (n % 10) '0']

def decimal_from_u32 (n : Nat) : String :=
  if n = 0 then "0" else ⟨natDigitsBase10Aux n n⟩

def decimal_from_i32 (x : Int) : String :=
  (if x < 0 then "-" else "") ++ decimal_from_u32 x.natAbs

/-- Rust cast chain `(x as i8) as u8`: truncation to the low 8 bits. -/
def i32_as_i8_as_u8 (x : Int) : Nat := (x % 256).toNat

/-- Rust cast `x as u64`: reinterpretation modulo `2^64`. -/
def i32_as_u64 (x : Int) : Nat := (x % (2 ^ 64)).toNat

/-- The file path read by `Chunk::load(world_path, x, z)`:
`<path>/<base36((x as i8 as u8) % 64)>/<base36((z as i8 as u8) % 64)>/c.<x base36>.<z base36>.dat`. -/
def chunk_load_path (world_path : String) (x z : Int) : String :=
  world_path ++ "/" ++ base36_from_u64 (i32_as_i8_as_u8 x % 64) ++ "/" ++
    base36_from_u64 (i32_as_i8_as_u8 z % 64) ++ "/" ++
    "c." ++ base36_from_i32 x ++ "." ++ base36_from_i32 z ++ ".dat"

/-- The file path written by `Chunk::save`: directories from
`base36(chunk_x as u64 % 64)`, but the file name interpolates the raw
`i32` coordinates (decimal `Display`), not their base-36 form. -/
def chunk_save_path (world_path : String) (x z : Int) : String :=
  world_path ++ "/" ++ base36_from_u64 (i32_as_u64 x % 64) ++ "/" ++
    base36_from_u64 (i32_as_u64 z % 64) ++ "/" ++
    "c." ++ decimal_from_i32 x ++ "." ++ decimal_from_i32 z ++ ".dat"

/-! ## Outbound packet ordering (`src/event.rs`, `core::send_packets_system`) -/

/-- `event::SendPacketEvent` {entity, ord, bytes}; the entity is carried
as its 32-bit index, the serialized packet as a byte list. -/
structure SendPacketEvent where
  entity : Nat
  ord : Nat
  bytes : List Nat
deriving DecidableEq, Repr

/-- The order induced by `SendPacketEvent::cmp`, which compares `ord`
only (`self.ord.cmp(&other.ord)`). -/
def spLE (a b : SendPacketEvent) : Prop := a.ord ≤ b.ord

instance : DecidableRel spLE := fun a b => Nat.decLe a.ord b.ord

instance : IsTotal SendPacketEvent spLE := ⟨fun a b => Nat.le_total a.ord b.ord⟩

instance : IsTrans SendPacketEvent spLE := ⟨fun _ _ _ => Nat.le_trans⟩

/-- `packets_to_send.sort()` in `send_packets_system`: Rust's stable sort
by `SendPacketEvent::cmp`.  A stable sort with respect to a total
preorder is extensionally unique, so it is embedded as insertion sort
with stable insertion (`List.orderedInsert` places each element before
the first existing element that is not strictly smaller, i.e. after all
earlier-published events of strictly smaller `ord` and before none of
equal `ord` that were published earlier). -/
def sortPackets (l : List SendPacketEvent) : List SendPacketEvent :=
  List.insertionSort spLE l

/-- The per-entity outbound sequence written by `send_packets_system`:
the sorted event list filtered to the entity, written in order and then
flushed once. -/
def send_packets_stream (events : List SendPacketEvent) (e : Nat) :
    List SendPacketEvent :=
  (sortPackets events).filter (fun p => p.entity == e)

/-- Concrete event list for the C4 witness: a MapChunk-like ord-2 event
published before a PreChunk-like ord-1 event for entity 0, plus an event
for entity 1. -/
def spEv0 : List SendPacketEvent := [⟨0, 2, [51]⟩, ⟨0, 1, [50]⟩, ⟨1, 1, [52]⟩]

/-! ## Scheduler registration and `increment_time`
(`fn main` in `src/main.rs`, `system::increment_time` in `src/system.rs`) -/

/-- The five schedules added in `main`. -/
inductive ScheduleLabel where
  | Core | ChunkPhase | ServerTick | SecondTick | AfterTick
deriving DecidableEq, Repr

/-- The systems of the server, one constructor per `fn` registered (or
registrable) in `main`. -/
inductive SystemName where
  | accept_system | login_system | initializing_system | event_emitter_system
  | load_chunks | unload_chunks
  | keep_alive | chat_message | system_message | disconnecting | digging
  | block_change | calculate_visible_players | correct_player_position
  | player_movement | move_player
  | send_packets_system | remove_invalid_players
  | increment_time
deriving DecidableEq, Repr

/-- `add_systems(CoreLabel, ...)`. -/
def coreSystems : List SystemName :=
  [.accept_system, .login_system, .initializing_system, .event_emitter_system]

/-- `add_systems(ChunkLabel, ...)`. -/
def chunkSystems : List SystemName := [.load_chunks, .unload_chunks]

/-- `add_systems(ServerTickLabel, ...)`. -/
def serverTickSystems : List SystemName :=
  [.keep_alive, .chat_message, .system_message, .disconnecting, .digging,
   .block_change, .calculate_visible_players, .correct_player_position,
   .player_movement, .move_player]

/-- Systems registered for `SecondTickLabel`: none — the line
`.add_systems(schedule::SecondTickLabel(), (system::increment_time,))`
is commented out in `main`. -/
def secondTickSystems : List SystemName := []

/-- `add_systems(AfterTickLabel, ...)`. -/
def afterTickSystems : List SystemName :=
  [.send_packets_system, .remove_invalid_players]

/-- One iteration of the hand-written runner loop in `main`: which
schedules run, given the milliseconds elapsed since the tick timer and
the second timer were last reset. -/
def runIteration (tickElapsedMs secondElapsedMs : Nat) : List ScheduleLabel :=
  [.Core, .ChunkPhase] ++
    (if 50 ≤ tickElapsedMs then [.ServerTick] else []) ++
    (if 1000 ≤ secondElapsedMs then [.SecondTick] else []) ++
    [.AfterTick]

/-- Big-endian byte expansion of a u64 value. -/
def u64ToBytesBE (n : Nat) : List Nat :=
  (List.range 8).map (fun i => n / 256 ^ (7 - i) % 256)

/-- Modelled from the spec: the `TimeUpdatePacket` serializer (packet id
0x04, then the u64 time big-endian); the serializer bodies live in the
`src/packet` module, of which only `types.rs` is available. -/
def serializeTimeUpdate (time : Nat) : List Nat := 4 :: u64ToBytesBE time

/-- `system::increment_time`: advance the world time by 20 and emit one
default-`ord` `SendPacketEvent` carrying a `TimeUpdatePacket` with the
updated time to every Playing entity. -/
def increment_time (w : World) (playing : List Nat) :
    World × List SendPacketEvent :=
  let current_time := w.get_time
  let w' := w.set_time (current_time + 20)
  (w', playing.map fun e => ⟨e, 5, serializeTimeUpdate w'.get_time⟩)

/-! ## The digging system (`system::digging` in `src/system.rs`) -/

/-- `event::Face`. -/
inductive Face where
  | Bottom | Top | Back | Front | Left | Right | UNKNOWN
deriving DecidableEq, Repr

/-- `From<u8> for Face`. -/
def Face.fromByte (v : Nat) : Face :=
  match v with
  | 0 => .Bottom
  | 1 => .Top
  | 2 => .Back
  | 3 => .Front
  | 4 => .Left
  | 5 => .Right
  | _ => .UNKNOWN

/-- The `Digging` component (`src/entity.rs`): target block and face. -/
structure Digging where
  x : Int
  y : Int
  z : Int
  face : Face
deriving DecidableEq, Repr

/-- `event::PlayerDiggingEvent`; entities are carried as their index. -/
inductive PlayerDiggingEvent where
  | Started (entity : Nat) (x : Int) (y : Int) (z : Int) (face : Face)
  | InProgress (entity : Nat)
  | Stopped (entity : Nat)
  | Completed (entity : Nat)
deriving DecidableEq, Repr

/-- `event::BlockChangeEvent`. -/
structure BlockChangeEvent where
  x : Int
  y : Int
  z : Int
  ty : Nat
  metadata : Nat
deriving DecidableEq, Repr

/-- The deferred `Commands` issued by the digging system: insert or
remove a `Digging` component (applied after the system finishes). -/
inductive DigCommand where
  | insert (entity : Nat) (d : Digging)
  | remove (entity : Nat)
deriving DecidableEq, Repr

/-- `system::digging`: fold over the drained `PlayerDiggingEvent`s.  The
query (entities that held a `Digging` component when the system started)
is an association list from entity index to component; the world is not
an input (the system signature has no `World` access).  `Completed`
emits one `BlockChangeEvent` per matching query row and removes the
component; with no matching row it emits nothing. -/
def digging (events : List PlayerDiggingEvent)
    (query : List (Nat × Digging)) :
    List BlockChangeEvent × List DigCommand :=
  events.foldl
    (fun acc ev =>
      match ev with
      | .Started e x y z f => (acc.1, acc.2 ++ [.insert e ⟨x, y, z, f⟩])
      | .InProgress _ => acc
      | .Stopped e => (acc.1, acc.2 ++ [.remove e])
      | .Completed e =>
        (acc.1 ++ (query.filter (fun p => p.1 == e)).map
            (fun p => ⟨p.2.x, p.2.y, p.2.z, 0, 0⟩),
         acc.2 ++ [.remove e]))
    ([], [])

/-- `Commands::insert` of a `Digging` component: replace an existing
component, else attach a new one. -/
def insertComp (comps : List (Nat × Digging)) (e : Nat) (d : Digging) :
    List (Nat × Digging) :=
  if comps.any (fun p => p.1 == e) then
    comps.map (fun p => if p.1 == e then (e, d) else p)
  else comps ++ [(e, d)]

/-- `Commands::remove::<Digging>`: detach the component when present,
no-op otherwise. -/
def removeComp (comps : List (Nat × Digging)) (e : Nat) :
    List (Nat × Digging) :=
  comps.filter (fun p => p.1 != e)

/-- Apply the deferred commands in order after the system ran. -/
def applyDigCommands (comps : List (Nat × Digging))
    (cmds : List DigCommand) : List (Nat × Digging) :=
  cmds.foldl
    (fun cs c =>
      match c with
      | .insert e d => insertComp cs e d
      | .remove e => removeComp cs e)
    comps

/-! ## The inbound decoder of `core::event_emitter_system` (`src/main.rs`)

The packet ids and the per-packet field layouts live in the `src/packet`
module, of which only `types.rs` (the field lists) is under `src/`; ids
are taken from the spec's packet table and each `nested_deserialize`
reads the `types.rs` field list in order with the `byte_man` readers. -/

namespace ids

/-- Modelled from the spec: packet ids of §4.2's table (`packet::ids`). -/
def KEEP_ALIVE : Nat := 0

def LOGIN : Nat := 1

def HANDSHAKE : Nat := 2

def CHAT_MESSAGE : Nat := 3

def PLAYER : Nat := 10

def PLAYER_POSITION : Nat := 11

def PLAYER_LOOK : Nat := 12

def PLAYER_POSITION_AND_LOOK : Nat := 13

def PLAYER_DIGGING : Nat := 14

def ANIMATION : Nat := 18

def KICK_OR_DISCONNECT : Nat := 255

end ids

/-- Sequencing of fallible cursor reads: Rust's `?` operator over the
`(Result, cursor)` shape used by the readers. -/
def rbind {α β : Type} (m : Cursor → Except PacketError α × Cursor)
    (f : α → Cursor → Except PacketError β × Cursor) :
    Cursor → Except PacketError β × Cursor := fun c =>
  match m c with
  | (.error e, c1) => (.error e, c1)
  | (.ok a, c1) => f a c1

/-- Lift a pure value into a read. -/
def rpure {α : Type} (a : α) : Cursor → Except PacketError α × Cursor :=
  fun c => (.ok a, c)

/-- Modelled from the spec: `HandshakePacket::nested_deserialize` — the
single length-prefixed string `connection_hash` of `types.rs`
`Handshake`. -/
def handshake_nested_deserialize : Cursor → Except PacketError (List Nat) × Cursor :=
  get_string

/-- Modelled from the spec: `ChatMessagePacket::nested_deserialize` —
the single string `message` of `types.rs` `ChatMessage`. -/
def chat_message_nested_deserialize : Cursor → Except PacketError (List Nat) × Cursor :=
  get_string

/-- Modelled from the spec: `LoginRequestPacket::nested_deserialize` —
`Login(C→S, {protocol, username, map seed, dimension})` per §4.5 and the
wire layout rules of §6; the emitter discards the value. -/
def login_request_nested_deserialize : Cursor → Except PacketError Unit × Cursor :=
  rbind get_i32 fun _ =>
  rbind get_string fun _ =>
  rbind get_u64 fun _ =>
  rbind get_u8 fun _ => rpure ()

/-- Fields of the C→S `PlayerPositionLook` packet (`types.rs` order:
x, y, stance, z, yaw, pitch, on_ground). -/
structure PlayerPositionLookPacket where
  x : Nat
  y : Nat
  stance : Nat
  z : Nat
  yaw : Nat
  pitch : Nat
  on_ground : Nat
deriving DecidableEq, Repr

/-- Modelled from the spec: `PlayerPositionLookPacket::nested_deserialize`
— four f64, two f32, one bool byte, in `types.rs` field order. -/
def player_position_look_nested_deserialize :
    Cursor → Except PacketError PlayerPositionLookPacket × Cursor :=
  rbind get_f64 fun x =>
  rbind get_f64 fun y =>
  rbind get_f64 fun stance =>
  rbind get_f64 fun z =>
  rbind get_f32 fun yaw =>
  rbind get_f32 fun pitch =>
  rbind get_u8 fun og => rpure ⟨x, y, stance, z, yaw, pitch, og⟩

/-- Fields of the C→S `PlayerPosition` packet. -/
structure PlayerPositionPacket where
  x : Nat
  y : Nat
  stance : Nat
  z : Nat
  on_ground : Nat
deriving DecidableEq, Repr

/-- Modelled from the spec: `PlayerPositionPacket::nested_deserialize`. -/
def player_position_nested_deserialize :
    Cursor → Except PacketError PlayerPositionPacket × Cursor :=
  rbind get_f64 fun x =>
  rbind get_f64 fun y =>
  rbind get_f64 fun stance =>
  rbind get_f64 fun z =>
  rbind get_u8 fun og => rpure ⟨x, y, stance, z, og⟩

/-- Fields of the C→S `PlayerLook` packet. -/
structure PlayerLookPacket where
  yaw : Nat
  pitch : Nat
  on_ground : Nat
deriving DecidableEq, Repr

/-- Modelled from the spec: `PlayerLookPacket::nested_deserialize`. -/
def player_look_nested_deserialize :
    Cursor → Except PacketError PlayerLookPacket × Cursor :=
  rbind get_f32 fun yaw =>
  rbind get_f32 fun pitch =>
  rbind get_u8 fun og => rpure ⟨yaw, pitch, og⟩

/-- Modelled from the spec: `PlayerPacket::nested_deserialize` — the
single `on_ground` bool byte. -/
def player_nested_deserialize : Cursor → Except PacketError Nat × Cursor :=
  get_u8

/-- Modelled from the spec: `ArmAnimationPacket::nested_deserialize` —
`entity_id` (u32) then `animate` (bool byte), per `types.rs`
`ArmAnimation`. -/
def arm_animation_nested_deserialize : Cursor → Except PacketError (Int × Nat) × Cursor :=
  rbind get_i32 fun eid =>
  rbind get_u8 fun animate => rpure (eid, animate)

/-- Fields of the C→S `PlayerDigging` packet (`types.rs`:
status u8, x i32, y i8, z i32, face u8). -/
structure PlayerDiggingPacket where
  status : Nat
  x : Int
  y : Int
  z : Int
  face : Nat
deriving DecidableEq, Repr

/-- Modelled from the spec: `PlayerDiggingPacket::nested_deserialize`. -/
def player_digging_nested_deserialize :
    Cursor → Except PacketError PlayerDiggingPacket × Cursor :=
  rbind get_u8 fun status =>
  rbind get_i32 fun x =>
  rbind get_i8 fun y =>
  rbind get_i32 fun z =>
  rbind get_u8 fun face => rpure ⟨status, x, y, z, face⟩

/-- Modelled from the spec: `DisconnectPacket::nested_deserialize` — the
single string `reason` of `types.rs` `Disconnect`. -/
def disconnect_nested_deserialize : Cursor → Except PacketError (List Nat) × Cursor :=
  get_string

/-- The events the emitter publishes to its four writers (`src/event.rs`);
entities are carried by index, f32/f64 payloads as bit patterns,
strings as byte lists, and the formatted leave message of the KICK arm
as the concatenation of its two arguments. -/
inductive EmittedEvent where
  | ChatMessage (sender : List Nat) (message : List Nat)
  | SystemMessage (message : List Nat)
  | PositionAndLook (entity_id : Nat) (x y z stance yaw pitch : Nat)
  | Position (entity_id : Nat) (x y z stance : Nat)
  | Look (entity_id : Nat) (yaw pitch : Nat)
  | Digging (e : PlayerDiggingEvent)
deriving DecidableEq, Repr

/-- Reason of a `Disconnecting` transition issued by the emitter. -/
inductive DisconnectReason where
  | kicked (reason : List Nat)
  | invalidPacket (id : Nat)
deriving DecidableEq, Repr

/-- One arm of the emitter's `match packet_id`: the events published and
the optional `Disconnecting` transition, or a fatal error. -/
def dispatchPacket (entityIdx : Nat) (name : List Nat) (packet_id : Nat)
    (c : Cursor) :
    Except PacketError (List EmittedEvent × Option DisconnectReason) × Cursor :=
  if packet_id = ids.KEEP_ALIVE then
    match handshake_nested_deserialize c with
    | (.error e, c1) => (.error e, c1)
    | (.ok _, c1) => (.ok ([], none), c1)
  else if packet_id = ids.HANDSHAKE then
    match handshake_nested_deserialize c with
    | (.error e, c1) => (.error e, c1)
    | (.ok _, c1) => (.ok ([], none), c1)
  else if packet_id = ids.LOGIN then
    match login_request_nested_deserialize c with
    | (.error e, c1) => (.error e, c1)
    | (.ok _, c1) => (.ok ([], none), c1)
  else if packet_id = ids.CHAT_MESSAGE then
    match chat_message_nested_deserialize c with
    | (.error e, c1) => (.error e, c1)
    | (.ok msg, c1) => (.ok ([.ChatMessage name msg], none), c1)
  else if packet_id = ids.PLAYER_POSITION_AND_LOOK then
    match player_position_look_nested_deserialize c with
    | (.error e, c1) => (.error e, c1)
    | (.ok p, c1) =>
      (.ok ([.PositionAndLook entityIdx p.x p.y p.z p.stance p.yaw p.pitch], none), c1)
  else if packet_id = ids.PLAYER then
    match player_nested_deserialize c with
    | (.error e, c1) => (.error e, c1)
    | (.ok _, c1) => (.ok ([], none), c1)
  else if packet_id = ids.PLAYER_POSITION then
    match player_position_nested_deserialize c with
    | (.error e, c1) => (.error e, c1)
    | (.ok p, c1) => (.ok ([.Position entityIdx p.x p.y p.z p.stance], none), c1)
  else if packet_id = ids.PLAYER_LOOK then
    match player_look_nested_deserialize c with
    | (.error e, c1) => (.error e, c1)
    | (.ok p, c1) => (.ok ([.Look entityIdx p.yaw p.pitch], none), c1)
  else if packet_id = ids.ANIMATION then
    match arm_animation_nested_deserialize c with
    | (.error e, c1) => (.error e, c1)
    | (.ok _, c1) => (.ok ([], none), c1)
  else if packet_id = ids.PLAYER_DIGGING then
    match player_digging_nested_deserialize c with
    | (.error e, c1) => (.error e, c1)
    | (.ok p, c1) =>
      let ev : Option PlayerDiggingEvent :=
        if p.status = 0 then
          some (.Started entityIdx p.x p.y p.z (Face.fromByte p.face))
        else if p.status = 1 then some (.InProgress entityIdx)
        else if p.status = 2 then some (.Stopped entityIdx)
        else if p.status = 3 then some (.Completed entityIdx)
        else none
      match ev with
      | some e => (.ok ([.Digging e], none), c1)
      | none => (.ok ([], none), c1)
  else if packet_id = ids.KICK_OR_DISCONNECT then
    match disconnect_nested_deserialize c with
    | (.error e, c1) => (.error e, c1)
    | (.ok reason, c1) =>
      (.ok ([.SystemMessage (name ++ reason)], some (.kicked reason)), c1)
  else (.error (.InvalidPacketID packet_id), c)

/-- The emitter's `while let Ok(packet_id) = get_u8(&mut cursor)` loop.
Events already handed to the `EventWriter`s stay published when a later
packet fails, so they are accumulated across the loop.  The first
argument is fuel bounding the iteration count; every iteration consumes
at least the id byte, so `data.length + 1` iterations always suffice and
the fuel-exhausted branch (which mirrors normal loop exit) is never hit
for the initial fuel used below. -/
def emitLoop : Nat → Nat → List Nat → Cursor →
    List EmittedEvent → Option DisconnectReason →
    List EmittedEvent × Option DisconnectReason × Except PacketError Nat
  | 0, _, _, c, events, disc => (events, disc, .ok c.pos)
  | fuel + 1, entityIdx, name, c, events, disc =>
    match get_u8 c with
    | (.error _, _) => (events, disc, .ok c.pos)
    | (.ok pid, c1) =>
      match dispatchPacket entityIdx name pid c1 with
      | (.error e, _) => (events, disc, .error e)
      | (.ok (evs, d), c2) =>
        emitLoop fuel entityIdx name c2 (events ++ evs)
          (match d with | some r => some r | none => disc)

/-- Result of one run of `event_emitter_system` for one Playing entity:
events published, the bytes written back to `left_over`, and the
connection-state transition, if any. -/
structure EmitterResult where
  events : List EmittedEvent
  left_over : List Nat
  disconnect : Option DisconnectReason
deriving DecidableEq, Repr

/-- One run of `core::event_emitter_system` for one Playing entity: load
the persistent leftover bytes, append what the socket yielded this tick
(socket errors are outside the decode path modelled here), decode
packets until exhaustion or error, then write back:
on `Ok(n)` the tail `buf[n..]`; on `InvalidPacketID` nothing (the
leftover was cleared and the entity transitions to `Disconnecting`); on
any other error the whole buffer starting at the never-advanced
`buf_start = 0`. -/
def event_emitter_tick (entityIdx : Nat) (name : List Nat)
    (left_over : List Nat) (newBytes : List Nat) : EmitterResult :=
  let buf := left_over ++ newBytes
  match emitLoop (buf.length + 1) entityIdx name ⟨buf, 0⟩ [] none with
  | (events, disc, .ok n) => ⟨events, buf.drop n, disc⟩
  | (events, _, .error (.InvalidPacketID id)) =>
    ⟨events, [], some (.invalidPacket id)⟩
  | (events, disc, .error _) => ⟨events, buf, disc⟩

/-- The C1 failing buffer: a complete ChatMessage packet
(id 3, length 2, bytes "ab") followed by a lone ChatMessage id byte. -/
def c1buf : List Nat := [3, 0, 2, 97, 98, 3]

/-! ## Player visibility (`system::calculate_visible_players`,
`Chunk::is_inside_chunk`) -/

/-- `Chunk::is_inside_chunk`: `((x - x % 16) / 16, (z - z % 16) / 16)`
with Rust's truncating i32 `%` and `/` (`Int.tmod` / `Int.tdiv`),
compared against the chunk's stored coordinates. -/
def Chunk.is_inside_chunk (c : Chunk) (x z : Int) : Bool :=
  ((x - Int.tmod x 16).tdiv 16 == c.chunk_x) &&
    ((z - Int.tmod z 16).tdiv 16 == c.chunk_z)

/-- A row of the inner query of `calculate_visible_players`
(Entity, Position, Look, Named): the entity index and the rounded block
position `x.round() as i32`, `z.round() as i32` (the f64-to-i32 rounding
is abstracted into the integer inputs; `Look` and `Named` only feed
packet payload fields). -/
structure OtherPlayer where
  index : Nat
  x : Int
  z : Int
deriving DecidableEq, Repr

/-- `chunks.values().map(|c| if c.is_inside_chunk(..) {1} else {0}).sum() > 0`. -/
def is_inside_visible_chunks (chunks : List Chunk) (x z : Int) : Bool :=
  decide (0 < (chunks.map fun c => if c.is_inside_chunk x z then 1 else 0).sum)

/-- The packets `calculate_visible_players` emits; payload fields beyond
the two entity ids are float-derived and not used by any claim. -/
inductive VisEvent where
  | entityPacket (toEntity aboutEntity : Nat)
  | namedEntitySpawn (toEntity aboutEntity : Nat)
  | destroyEntity (toEntity aboutEntity : Nat)
deriving DecidableEq, Repr

/-- `Vec::swap_remove(i)`: overwrite index `i` with the last element,
then pop the last element. -/
def swapRemove (l : List Nat) (i : Nat) : List Nat :=
  match l.getLast? with
  | none => l
  | some b => (l.set i b).dropLast

/-- One iteration of the inner loop of `calculate_visible_players`:
skip `A` itself, then push / swap-remove `B` on A's visible list
according to `(is_inside, contains)` and emit the matching packets. -/
def visStep (aIdx : Nat) (chunks : List Chunk) (st : List Nat × List VisEvent)
    (o : OtherPlayer) : List Nat × List VisEvent :=
  if aIdx == o.index then st
  else
    match is_inside_visible_chunks chunks o.x o.z, st.1.contains o.index with
    | true, false =>
      (st.1 ++ [o.index],
       st.2 ++ [.entityPacket aIdx o.index, .namedEntitySpawn aIdx o.index])
    | false, true =>
      (swapRemove st.1 (st.1.indexOf o.index),
       st.2 ++ [.destroyEntity aIdx o.index])
    | _, _ => st

/-- `calculate_visible_players` restricted to one outer entity `A` (the
outer loop handles each `A` independently): fold the inner loop over the
Playing entities, starting from the current contents of A's visible
list. -/
def calculate_visible_players (aIdx : Nat) (chunks : List Chunk)
    (initList : List Nat) (others : List OtherPlayer) :
    List Nat × List VisEvent :=
  others.foldl (visStep aIdx chunks) (initList, [])

/-- Defined from the claim's words, for comparison with the code: chunk
`(cx, cz)` covers the block columns with `16*cx ≤ x < 16*cx + 16` and
`16*cz ≤ z < 16*cz + 16`, including negative coordinates. -/
def spec_chunk_covers (cx cz x z : Int) : Prop :=
  16 * cx ≤ x ∧ x < 16 * cx + 16 ∧ 16 * cz ≤ z ∧ z < 16 * cz + 16

instance (cx cz x z : Int) : Decidable (spec_chunk_covers cx cz x z) := by
  unfold spec_chunk_covers
  infer_instance

/-- A chunk with stored coordinates `(0, 0)` (only the coordinates feed
`is_inside_chunk`). -/
def chunk00 : Chunk := ⟨0, 0, false, 0, [], [], [], [], []⟩

/-! ## Theorems -/

/-! Helper lemmas: each fixed-width reader leaves the cursor unchanged on
the error path. -/

theorem get_u8_err_snd {c : Cursor} (h : (get_u8 c).1 = .error .NotEnoughBytes) :
    (get_u8 c).2 = c := by
  unfold get_u8 at *
  split at h <;> simp_all

theorem get_i8_err_snd {c : Cursor} (h : (get_i8 c).1 = .error .NotEnoughBytes) :
    (get_i8 c).2 = c := by
  unfold get_i8 at *
  split at h <;> simp_all

theorem get_u16_err_snd {c : Cursor} (h : (get_u16 c).1 = .error .NotEnoughBytes) :
    (get_u16 c).2 = c := by
  unfold get_u16 at *
  split at h <;> simp_all

theorem get_i32_err_snd {c : Cursor} (h : (get_i32 c).1 = .error .NotEnoughBytes) :
    (get_i32 c).2 = c := by
  unfold get_i32 at *
  split at h <;> simp_all

theorem get_f32_err_snd {c : Cursor} (h : (get_f32 c).1 = .error .NotEnoughBytes) :
    (get_f32 c).2 = c := by
  unfold get_f32 at *
  split at h <;> simp_all

theorem get_f64_err_snd {c : Cursor} (h : (get_f64 c).1 = .error .NotEnoughBytes) :
    (get_f64 c).2 = c := by
  unfold get_f64 at *
  split at h <;> simp_all

theorem get_u64_err_snd {c : Cursor} (h : (get_u64 c).1 = .error .NotEnoughBytes) :
    (get_u64 c).2 = c := by
  unfold get_u64 at *
  split at h <;> simp_all

/-- On the error path `get_string` returns either the original cursor (the
length prefix itself was unreadable) or the cursor advanced past the two
length-prefix bytes (the declared body did not fit). -/
theorem get_string_err_snd {c : Cursor}
    (h : (get_string c).1 = .error .NotEnoughBytes) :
    (get_string c).2 = c ∨ (get_string c).2 = c.advance 2 := by
  unfold get_string
  unfold get_string at h
  cases hu : get_u16 c with
  | mk r c1 =>
    simp only [hu] at h ⊢
    cases r with
    | error e =>
      left
      simp only at h
      cases h
      have h1 : (get_u16 c).1 = .error .NotEnoughBytes := by rw [hu]
      have h2 := get_u16_err_snd h1
      rw [hu] at h2
      exact h2
    | ok len =>
      have hc1 : c1 = c.advance 2 := by
        have h4 : ¬ c.remaining < 4 := by
          by_contra hlt
          rw [get_u16, if_pos hlt] at hu
          cases hu
        rw [get_u16, if_neg h4] at hu
        cases hu
        rfl
      by_cases hr : c1.remaining < len
      · right
        rw [hc1] at hr ⊢
        simp only [if_pos hr]
      · exfalso
        simp only [if_neg hr] at h
        rw [skip, if_neg hr] at h
        simp at h

/-- C2 (amended): every fixed-width typed reader of `byte_man`
(`get_u8`, `get_i8`, `get_u16`, `get_i32`, `get_f32`, `get_f64`,
`get_u64`; the codec has no i64 reader) leaves the cursor unchanged when
it returns `NotEnoughBytes`; `get_string` leaves it unchanged when the
length prefix is unreadable but advances it by the two prefix bytes when
the declared body exceeds the remaining bytes. -/
theorem byte_man_err_cursor :
    (∀ c : Cursor, (get_u8 c).1 = .error .NotEnoughBytes → (get_u8 c).2 = c) ∧
    (∀ c : Cursor, (get_i8 c).1 = .error .NotEnoughBytes → (get_i8 c).2 = c) ∧
    (∀ c : Cursor, (get_u16 c).1 = .error .NotEnoughBytes → (get_u16 c).2 = c) ∧
    (∀ c : Cursor, (get_i32 c).1 = .error .NotEnoughBytes → (get_i32 c).2 = c) ∧
    (∀ c : Cursor, (get_f32 c).1 = .error .NotEnoughBytes → (get_f32 c).2 = c) ∧
    (∀ c : Cursor, (get_f64 c).1 = .error .NotEnoughBytes → (get_f64 c).2 = c) ∧
    (∀ c : Cursor, (get_u64 c).1 = .error .NotEnoughBytes → (get_u64 c).2 = c) ∧
    (∀ c : Cursor, (get_string c).1 = .error .NotEnoughBytes →
      (get_string c).2 = c ∨ (get_string c).2 = c.advance 2) :=
  ⟨fun _ => get_u8_err_snd, fun _ => get_i8_err_snd, fun _ => get_u16_err_snd,
   fun _ => get_i32_err_snd, fun _ => get_f32_err_snd, fun _ => get_f64_err_snd,
   fun _ => get_u64_err_snd, fun _ => get_string_err_snd⟩

/-- Witness for `byte_man_err_cursor` at concrete cursors. -/
theorem byte_man_err_cursor_witness :
    (get_u8 ⟨[], 0⟩).2 = (⟨[], 0⟩ : Cursor) ∧
    ((get_string ⟨[0, 9, 0, 0], 0⟩).2 = (⟨[0, 9, 0, 0], 0⟩ : Cursor) ∨
      (get_string ⟨[0, 9, 0, 0], 0⟩).2 = Cursor.advance ⟨[0, 9, 0, 0], 0⟩ 2) :=
  ⟨byte_man_err_cursor.1 ⟨[], 0⟩ rfl,
   byte_man_err_cursor.2.2.2.2.2.2.2 ⟨[0, 9, 0, 0], 0⟩ rfl⟩

/-- C2 counterexample: `get_string` on `[0, 9, 0, 0]` (declared length 9,
only 2 bytes of body) returns `NotEnoughBytes` with the cursor advanced to
position 2, not the original position 0. -/
theorem get_string_advances_cursor_on_failure :
    (get_string ⟨[0, 9, 0, 0], 0⟩).1 = .error .NotEnoughBytes ∧
    (get_string ⟨[0, 9, 0, 0], 0⟩).2.pos = 2 ∧ (2 : Nat) ≠ 0 :=
  ⟨rfl, rfl, by decide⟩

/-- C3: the code's `get_u16` rejects a cursor holding exactly the two
bytes `0x12 0x34` with `NotEnoughBytes` (its pre-check demands four
remaining bytes although it reads two), where the claim requires success
with value `0x1234` whenever at least two bytes remain. -/
theorem get_u16_rejects_two_remaining_bytes :
    Cursor.remaining ⟨[18, 52], 0⟩ = 2 ∧
    get_u16 ⟨[18, 52], 0⟩ = (.error .NotEnoughBytes, ⟨[18, 52], 0⟩) ∧
    18 * 256 + 52 = 4660 :=
  ⟨rfl, rfl, rfl⟩

/-- `set_time` agrees with reduction mod 24000 below 48000 (helper shared
by the time-related theorems). -/
theorem set_time_time_of_lt (w : World) (t : Nat) (h : t < 48000) :
    (w.set_time t).time = t % 24000 := by
  unfold World.set_time
  split <;> simp <;> omega

/-- C7 counterexample: `set_time 48000` stores 24000, but
`48000 mod 24000 = 0`. -/
theorem set_time_48000_not_mod :
    (World.set_time ⟨0⟩ 48000).get_time = 24000 ∧
    48000 % 24000 = 0 ∧ (24000 : Nat) ≠ 0 :=
  ⟨rfl, rfl, by decide⟩

/-- C7 (amended): `set_time t` stores `t` minus 24000 exactly when
`t ≥ 24000`; hence it agrees with `t mod 24000` for all `t < 48000`
(every value reachable from the in-game day counter). -/
theorem set_time_mod_of_lt (w : World) (t : Nat) (h : t < 48000) :
    (w.set_time t).get_time = t % 24000 :=
  set_time_time_of_lt w t h

/-- Witness for `set_time_mod_of_lt` at `t = 30000`. -/
theorem set_time_mod_of_lt_witness :
    (World.set_time ⟨0⟩ 30000).get_time = 30000 % 24000 :=
  set_time_mod_of_lt ⟨0⟩ 30000 (by decide)

/-- C6: with the spec's array-length invariant (`blocks` has the 32768
entries of a 16 × 128 × 16 volume), `set_block` at in-range local
coordinates returns `some` of the previous block value and a following
`get_block` returns the written value; and whenever the index falls
outside `blocks`, `get_block` is `none` and `set_block` is `none` with
the chunk unchanged. -/
theorem set_block_get_block :
    (∀ (c : Chunk) (x y z v : Nat), c.blocks.length = 32768 →
      x < 16 → y < 128 → z < 16 →
      (c.set_block x y z v).1 = c.get_block x y z ∧
      (c.get_block x y z).isSome = true ∧
      ((c.set_block x y z v).2.get_block x y z = some v)) ∧
    (∀ (c : Chunk) (x y z v : Nat), c.blocks.length ≤ block_index x y z →
      c.get_block x y z = none ∧ c.set_block x y z v = (none, c)) := by
  constructor
  · intro c x y z v hlen hx hy hz
    have hidx : block_index x y z < c.blocks.length := by
      unfold block_index
      omega
    refine ⟨?_, ?_, ?_⟩
    · rw [Chunk.set_block, Chunk.get_block,
        List.getElem?_eq_getElem hidx]
    · rw [Chunk.get_block, List.getElem?_eq_getElem hidx]
      rfl
    · rw [Chunk.set_block, List.getElem?_eq_getElem hidx]
      simp only [Chunk.get_block]
      exact List.getElem?_set_eq_of_lt v (by simpa using hidx)
  · intro c x y z v hlen
    have hnone : c.blocks[block_index x y z]? = none :=
      List.getElem?_eq_none hlen
    exact ⟨hnone, by rw [Chunk.set_block, hnone]⟩

/-- Witness for `set_block_get_block` on `chunkEx`. -/
theorem set_block_get_block_witness :
    ((chunkEx.set_block 1 2 3 7).1 = chunkEx.get_block 1 2 3 ∧
      (chunkEx.get_block 1 2 3).isSome = true ∧
      (chunkEx.set_block 1 2 3 7).2.get_block 1 2 3 = some 7) ∧
    (chunkEx.get_block 255 255 255 = none ∧
      chunkEx.set_block 255 255 255 9 = (none, chunkEx)) :=
  ⟨set_block_get_block.1 chunkEx 1 2 3 7 (by simp only [chunkEx, List.length_replicate]) (by decide)
      (by decide) (by decide),
   set_block_get_block.2 chunkEx 255 255 255 9
      (by simp only [chunkEx, block_index, List.length_replicate]; omega)⟩

/-- C5: at chunk coordinates `(10, 0)` the path `Chunk::save` writes
(decimal file name `c.10.0.dat`) differs from the path `Chunk::load`
reads (base-36 file name `c.a.0.dat`), so save does not persist to the
file load reads. -/
theorem chunk_save_path_mismatch :
    chunk_load_path "w" 10 0 = "w/a/0/c.a.0.dat" ∧
    chunk_save_path "w" 10 0 = "w/a/0/c.10.0.dat" ∧
    chunk_save_path "w" 10 0 ≠ chunk_load_path "w" 10 0 := by
  refine ⟨by decide, by decide, by decide⟩

theorem filter_orderedInsert_pos (q : SendPacketEvent → Bool)
    (a : SendPacketEvent) (hqa : q a = true)
    (h : ∀ y, y.ord < a.ord → q y = false) :
    ∀ l : List SendPacketEvent,
      (List.orderedInsert spLE a l).filter q = a :: l.filter q := by
  intro l
  induction l with
  | nil => simp [List.orderedInsert, hqa]
  | cons b l ih =>
    by_cases hab : spLE a b
    · rw [List.orderedInsert_of_le _ _ hab]
      simp [hqa]
    · have hb : q b = false := h b (by
        have := Nat.lt_of_not_le (fun hle => hab hle)
        exact this)
      simp only [List.orderedInsert, if_neg hab, List.filter_cons, hb]
      simpa using ih

theorem filter_orderedInsert_neg (q : SendPacketEvent → Bool)
    (a : SendPacketEvent) (hqa : q a = false) :
    ∀ l : List SendPacketEvent,
      (List.orderedInsert spLE a l).filter q = l.filter q := by
  intro l
  induction l with
  | nil => simp [List.orderedInsert, hqa]
  | cons b l ih =>
    by_cases hab : spLE a b
    · rw [List.orderedInsert_of_le _ _ hab]
      simp [hqa]
    · simp only [List.orderedInsert, if_neg hab, List.filter_cons]
      rw [ih]

/-- Stability of the sort: filtering by any predicate that never holds
below the `ord` of one of its members commutes with sorting. -/
theorem filter_sortPackets (q : SendPacketEvent → Bool)
    (h : ∀ x y, q x = true → y.ord < x.ord → q y = false) :
    ∀ l : List SendPacketEvent, (sortPackets l).filter q = l.filter q := by
  intro l
  induction l with
  | nil => rfl
  | cons a l ih =>
    show (List.orderedInsert spLE a (sortPackets l)).filter q = _
    by_cases hqa : q a = true
    · rw [filter_orderedInsert_pos q a hqa (fun y => h a y hqa), ih]
      simp [hqa]
    · rw [filter_orderedInsert_neg q a (by simpa using hqa), ih]
      simp [List.filter_cons, hqa]

/-- C4: every per-entity outbound stream of `send_packets_system` is in
non-decreasing `ord` order; ties keep publish order (filtering the
stream to one `ord` value yields exactly the events the producers
published for that entity and `ord`, in publish order); and a packet of
strictly smaller `ord` — in particular a chunk-load `PreChunk` (ord 1)
versus its `MapChunk` (ord 2) — is always written earlier in the
stream. -/
theorem send_packets_per_entity_order (events : List SendPacketEvent) (e : Nat) :
    List.Sorted spLE (send_packets_stream events e) ∧
    (∀ k : Nat, (send_packets_stream events e).filter (fun p => p.ord == k) =
      events.filter (fun p => p.entity == e && p.ord == k)) ∧
    (∀ (i j : Nat) (hi : i < (send_packets_stream events e).length)
        (hj : j < (send_packets_stream events e).length),
      ((send_packets_stream events e).get ⟨i, hi⟩).ord <
        ((send_packets_stream events e).get ⟨j, hj⟩).ord → i < j) := by
  refine ⟨?_, ?_, ?_⟩
  · exact (List.sorted_insertionSort spLE events).filter _
  · intro k
    rw [send_packets_stream, List.filter_filter]
    rw [filter_sortPackets (fun a => a.ord == k && a.entity == e)
      (fun x y hx hlt => by
        simp only [Bool.and_eq_true, beq_iff_eq] at hx
        have hne : (y.ord == k) = false := beq_eq_false_iff_ne.mpr (by omega)
        simp [hne]) events]
    exact List.filter_congr
      (fun a _ => Bool.and_comm (a.ord == k) (a.entity == e))
  · intro i j hi hj hlt
    by_contra hij
    have hji : j ≤ i := Nat.le_of_not_lt hij
    have hsorted : List.Sorted spLE (send_packets_stream events e) :=
      (List.sorted_insertionSort spLE events).filter _
    rcases Nat.lt_or_ge j i with hj2 | hj2
    · have := List.Sorted.rel_get_of_lt hsorted (show (⟨j, hj⟩ : Fin _) < ⟨i, hi⟩ from hj2)
      exact absurd hlt (by simp only [spLE] at this; omega)
    · have : i = j := by omega
      subst this
      exact absurd hlt (by omega)

/-- Witness for `send_packets_per_entity_order`: entity 0's stream is
sorted, tie classes equal the published sublists, and the ord-1 packet at
position 0 precedes the ord-2 packet at position 1. -/
theorem send_packets_per_entity_order_witness :
    List.Sorted spLE (send_packets_stream spEv0 0) ∧
    (send_packets_stream spEv0 0).filter (fun p => p.ord == 1) =
      spEv0.filter (fun p => p.entity == 0 && p.ord == 1) ∧
    (0 : Nat) < 1 :=
  ⟨(send_packets_per_entity_order spEv0 0).1,
   (send_packets_per_entity_order spEv0 0).2.1 1,
   (send_packets_per_entity_order spEv0 0).2.2 0 1 (by decide) (by decide)
     (by decide)⟩

/-- C9 counterexample: `increment_time` is not registered in the
SECOND-phase schedule (its registration is commented out in `main`), so
the SECOND phase executes no system at all. -/
theorem increment_time_not_registered :
    SystemName.increment_time ∉ secondTickSystems ∧ secondTickSystems = [] :=
  ⟨by decide, rfl⟩

/-- C9 (amended): the SECOND phase is scheduled exactly when at least
1000 ms have elapsed since its last run, but no system is registered to
it; the `increment_time` function itself (present but unregistered)
advances the world time by 20 wrapping at 24000 and emits a
`TimeUpdatePacket` with the new time to every Playing entity. -/
theorem second_phase_and_increment_time :
    (∀ t s : Nat, ScheduleLabel.SecondTick ∈ runIteration t s ↔ 1000 ≤ s) ∧
    secondTickSystems = [] ∧
    (∀ (w : World) (playing : List Nat), w.time < 24000 →
      (increment_time w playing).1.get_time = (w.time + 20) % 24000 ∧
      (increment_time w playing).2 =
        playing.map fun e => ⟨e, 5, serializeTimeUpdate ((w.time + 20) % 24000)⟩) := by
  refine ⟨?_, rfl, ?_⟩
  · intro t s
    by_cases h1 : 50 ≤ t <;> by_cases h2 : 1000 ≤ s <;>
      simp [runIteration, h1, h2]
  · intro w playing h
    have ht : (w.set_time (w.get_time + 20)).time = (w.time + 20) % 24000 :=
      set_time_time_of_lt w (w.get_time + 20) (by unfold World.get_time; omega)
    constructor
    · simpa [increment_time, World.get_time] using ht
    · simp only [increment_time, World.get_time]
      rw [show (w.set_time (w.time + 20)).time = (w.time + 20) % 24000 from ht]

/-- Witness for `second_phase_and_increment_time`. -/
theorem second_phase_and_increment_time_witness :
    (ScheduleLabel.SecondTick ∈ runIteration 0 1000 ↔ 1000 ≤ 1000) ∧
    ((increment_time ⟨23990⟩ [3]).1.get_time = (23990 + 20) % 24000 ∧
      (increment_time ⟨23990⟩ [3]).2 =
        [3].map fun e => ⟨e, 5, serializeTimeUpdate ((23990 + 20) % 24000)⟩) :=
  ⟨(second_phase_and_increment_time.1 0 1000),
   second_phase_and_increment_time.2.2 ⟨23990⟩ [3] (by decide)⟩

/-- C10: consuming a `Completed` digging event for an entity that holds
no `Digging` component publishes no `BlockChangeEvent`, and after the
deferred commands are applied every entity's components are exactly as
before (the only command is the no-op removal of an absent component);
the system has no access to the world at all. -/
theorem digging_completed_without_component
    (query : List (Nat × Digging)) (e : Nat)
    (h : e ∉ query.map Prod.fst) :
    (digging [.Completed e] query).1 = [] ∧
    applyDigCommands query (digging [.Completed e] query).2 = query := by
  have hfilter : query.filter (fun p => p.1 == e) = [] := by
    rw [List.filter_eq_nil_iff]
    intro p hp hbeq
    exact h (List.mem_map.mpr ⟨p, hp, by simpa using hbeq⟩)
  constructor
  · simp [digging, hfilter]
  · have hcmds : (digging [.Completed e] query).2 = [.remove e] := by
      simp [digging, hfilter]
    rw [hcmds]
    show removeComp query e = query
    rw [removeComp, List.filter_eq_self]
    intro p hp
    simp only [bne_iff_ne, ne_eq]
    intro hpe
    exact h (List.mem_map.mpr ⟨p, hp, hpe⟩)

/-- Witness for `digging_completed_without_component`: entity 7 has no
`Digging` component while entity 5 does. -/
theorem digging_completed_without_component_witness :
    (digging [.Completed 7] [(5, ⟨1, 2, 3, .Top⟩)]).1 = [] ∧
    applyDigCommands [(5, ⟨1, 2, 3, .Top⟩)]
      (digging [.Completed 7] [(5, ⟨1, 2, 3, .Top⟩)]).2 =
      [(5, ⟨1, 2, 3, .Top⟩)] :=
  digging_completed_without_component [(5, ⟨1, 2, 3, .Top⟩)] 7 (by decide)

/-- C1: feeding `c1buf` to the emitter publishes the chat event and hits
`NotEnoughBytes` on the trailing partial packet; the code then writes
the whole buffer back to `left_over` — not the unconsumed tail `[3]` —
so the next tick, with no new socket bytes, decodes the complete packet
again and publishes its event a second time. -/
theorem event_emitter_duplicates_chat_event :
    (event_emitter_tick 9 [110] [] c1buf).events =
      [.ChatMessage [110] [97, 98]] ∧
    (event_emitter_tick 9 [110] [] c1buf).left_over = c1buf ∧
    c1buf ≠ [3] ∧
    (event_emitter_tick 9 [110]
        (event_emitter_tick 9 [110] [] c1buf).left_over []).events =
      [.ChatMessage [110] [97, 98]] := by
  refine ⟨by decide, by decide, by decide, by decide⟩

/-- `swap_remove` at a valid index removes exactly the element at that
index, up to permutation. -/
theorem swapRemove_perm_eraseIdx (l : List Nat) (i : Nat) (hi : i < l.length) :
    List.Perm (swapRemove l i) (l.eraseIdx i) := by
  have hne : l ≠ [] := by
    intro h
    rw [h] at hi
    exact absurd hi (by simp)
  obtain ⟨b, hb⟩ : ∃ b, l.getLast? = some b := by
    cases hl : l.getLast? with
    | none => exact absurd (List.getLast?_eq_none_iff.mp hl) hne
    | some b => exact ⟨b, rfl⟩
  have hdecomp : l.dropLast ++ [b] = l := List.dropLast_append_getLast? b hb
  rw [swapRemove, hb]
  simp only
  rw [List.set_eq_take_cons_drop b hi, List.eraseIdx_eq_take_drop_succ]
  rcases Nat.lt_or_ge (i + 1) l.length with hlt | hge
  · -- `i` is not the last index: the drop part still ends in `b`.
    have hi1 : i + 1 ≤ l.dropLast.length := by
      have := List.length_dropLast l
      omega
    have hdrop : l.drop (i + 1) = l.dropLast.drop (i + 1) ++ [b] := by
      conv =>
        lhs
        rw [← hdecomp]
      exact List.drop_append_of_le_length hi1
    rw [hdrop]
    have hassoc : l.take i ++ b :: (l.dropLast.drop (i + 1) ++ [b]) =
        (l.take i ++ b :: l.dropLast.drop (i + 1)) ++ [b] := by simp
    rw [hassoc, List.dropLast_concat]
    refine (List.Perm.append_left (l.take i) ?_)
    exact (List.perm_append_singleton b (l.dropLast.drop (i + 1))).symm
  · -- `i` is the last index.
    have hlen : l.length = i + 1 := by omega
    have hdrop : l.drop (i + 1) = [] := List.drop_eq_nil_of_le (by omega)
    rw [hdrop, List.dropLast_concat, List.append_nil]

/-- Removing index `i` and re-consing the element there permutes back to
the list. -/
theorem perm_get_cons_eraseIdx (l : List Nat) (i : Nat) (hi : i < l.length) :
    List.Perm l (l.get ⟨i, hi⟩ :: l.eraseIdx i) := by
  conv_lhs => rw [← List.take_append_drop i l]
  rw [List.eraseIdx_eq_take_drop_succ]
  have hdrop : l.drop i = l.get ⟨i, hi⟩ :: l.drop (i + 1) := by
    rw [List.drop_eq_getElem_cons hi]
    rfl
  rw [hdrop]
  exact List.perm_middle

/-- Membership in `swap_remove l i` for values other than `l[i]`. -/
theorem mem_swapRemove_of_ne {l : List Nat} {i : Nat} (hi : i < l.length)
    {y : Nat} (hne : l.get ⟨i, hi⟩ ≠ y) : y ∈ swapRemove l i ↔ y ∈ l := by
  rw [(swapRemove_perm_eraseIdx l i hi).mem_iff,
    (perm_get_cons_eraseIdx l i hi).mem_iff, List.mem_cons]
  constructor
  · exact Or.inr
  · rintro (h1 | h1)
    · exact absurd h1.symm hne
    · exact h1

/-- On a duplicate-free list, `swap_remove` at index `i` removes `l[i]`. -/
theorem not_mem_swapRemove_self {l : List Nat} {i : Nat} (hi : i < l.length)
    (hnd : l.Nodup) : l.get ⟨i, hi⟩ ∉ swapRemove l i := by
  intro hmem
  have h1 := (swapRemove_perm_eraseIdx l i hi).mem_iff.mp hmem
  have h3 : (l.get ⟨i, hi⟩ :: l.eraseIdx i).Nodup :=
    ((perm_get_cons_eraseIdx l i hi).nodup_iff).mp hnd
  exact (List.nodup_cons.mp h3).1 h1

/-- `swap_remove` preserves freedom from duplicates. -/
theorem nodup_swapRemove {l : List Nat} {i : Nat} (hi : i < l.length)
    (hnd : l.Nodup) : (swapRemove l i).Nodup := by
  refine ((swapRemove_perm_eraseIdx l i hi).nodup_iff).mpr ?_
  have h3 : (l.get ⟨i, hi⟩ :: l.eraseIdx i).Nodup :=
    ((perm_get_cons_eraseIdx l i hi).nodup_iff).mp hnd
  exact (List.nodup_cons.mp h3).2

/-- Branch form of `visStep` (the match on the `(is_inside, contains)`
pair written as nested conditionals), used to drive the case analyses. -/
theorem visStep_eq (aIdx : Nat) (chunks : List Chunk)
    (st : List Nat × List VisEvent) (o : OtherPlayer) :
    visStep aIdx chunks st o =
      if aIdx == o.index then st
      else if is_inside_visible_chunks chunks o.x o.z then
        (if st.1.contains o.index then st
         else (st.1 ++ [o.index],
           st.2 ++ [.entityPacket aIdx o.index, .namedEntitySpawn aIdx o.index]))
      else
        (if st.1.contains o.index then
          (swapRemove st.1 (st.1.indexOf o.index),
           st.2 ++ [.destroyEntity aIdx o.index])
         else st) := by
  unfold visStep
  cases aIdx == o.index <;>
    cases is_inside_visible_chunks chunks o.x o.z <;>
    cases st.1.contains o.index <;> rfl

/-- Processing a row whose index differs from `y` never changes whether
`y` is in the visible list. -/
theorem visStep_fst_mem_of_ne (aIdx : Nat) (chunks : List Chunk)
    (st : List Nat × List VisEvent) (o : OtherPlayer) {y : Nat}
    (hne : o.index ≠ y) :
    (y ∈ (visStep aIdx chunks st o).1 ↔ y ∈ st.1) := by
  rw [visStep_eq]
  split_ifs with h1 h2 h3 h4
  · exact Iff.rfl
  · exact Iff.rfl
  · rw [List.mem_append]
    constructor
    · rintro (h | h)
      · exact h
      · exact absurd (List.mem_singleton.mp h).symm hne
    · exact Or.inl
  · have hmem : o.index ∈ st.1 := by simpa using h4
    have hi : st.1.indexOf o.index < st.1.length :=
      List.indexOf_lt_length.mpr hmem
    have hget : st.1.get ⟨st.1.indexOf o.index, hi⟩ = o.index :=
      List.indexOf_get hi
    exact mem_swapRemove_of_ne hi (by rw [hget]; exact hne)
  · exact Iff.rfl

/-- `visStep` keeps the visible list duplicate-free. -/
theorem visStep_fst_nodup (aIdx : Nat) (chunks : List Chunk)
    (st : List Nat × List VisEvent) (o : OtherPlayer)
    (h : st.1.Nodup) : (visStep aIdx chunks st o).1.Nodup := by
  rw [visStep_eq]
  split_ifs with h1 h2 h3 h4
  · exact h
  · exact h
  · have hnm : o.index ∉ st.1 := by simpa using h3
    rw [List.nodup_append]
    refine ⟨h, List.nodup_singleton _, fun a ha hsing => ?_⟩
    have ha2 : a = o.index := List.mem_singleton.mp hsing
    exact hnm (ha2 ▸ ha)
  · have hmem : o.index ∈ st.1 := by simpa using h4
    exact nodup_swapRemove (List.indexOf_lt_length.mpr hmem) h
  · exact h

/-- Processing `B`'s own row sets its membership in the visible list to
exactly `is_inside_visible_chunks`. -/
theorem visStep_fst_self_mem (aIdx : Nat) (chunks : List Chunk)
    (st : List Nat × List VisEvent) (o : OtherPlayer)
    (h : st.1.Nodup) (hne : aIdx ≠ o.index) :
    (o.index ∈ (visStep aIdx chunks st o).1 ↔
      is_inside_visible_chunks chunks o.x o.z = true) := by
  rw [visStep_eq]
  have hb : (aIdx == o.index) = false := beq_eq_false_iff_ne.mpr hne
  rw [hb]
  simp only [Bool.false_eq_true, if_false]
  split_ifs with h2 h3 h4
  · have hmem : o.index ∈ st.1 := by simpa using h3
    simp [hmem, h2]
  · simp [h2, List.mem_append]
  · have hmem : o.index ∈ st.1 := by simpa using h4
    have hi : st.1.indexOf o.index < st.1.length :=
      List.indexOf_lt_length.mpr hmem
    have hget : st.1.get ⟨st.1.indexOf o.index, hi⟩ = o.index :=
      List.indexOf_get hi
    have hout := not_mem_swapRemove_self hi h
    rw [hget] at hout
    simp only [Bool.not_eq_true] at h2
    simp [hout, h2]
  · have hnm : o.index ∉ st.1 := by simpa using h4
    simp only [Bool.not_eq_true] at h2
    simp [hnm, h2]

/-- Folding the inner loop over rows whose indices all differ from `y`
never changes whether `y` is in the visible list. -/
theorem foldl_visStep_mem (aIdx : Nat) (chunks : List Chunk)
    (rest : List OtherPlayer) {y : Nat}
    (hall : ∀ o ∈ rest, o.index ≠ y) :
    ∀ st : List Nat × List VisEvent,
      (y ∈ (rest.foldl (visStep aIdx chunks) st).1 ↔ y ∈ st.1) := by
  induction rest with
  | nil => intro st; simp
  | cons o rest ih =>
    intro st
    rw [List.foldl_cons,
      ih (fun o2 ho2 => hall o2 (List.mem_cons_of_mem _ ho2)) _]
    exact visStep_fst_mem_of_ne aIdx chunks st o (hall o (List.mem_cons_self _ _))

/-- Folding the inner loop preserves freedom from duplicates. -/
theorem foldl_visStep_nodup (aIdx : Nat) (chunks : List Chunk)
    (rest : List OtherPlayer) :
    ∀ st : List Nat × List VisEvent, st.1.Nodup →
      ((rest.foldl (visStep aIdx chunks) st).1).Nodup := by
  induction rest with
  | nil => intro st h; simpa
  | cons o rest ih =>
    intro st h
    rw [List.foldl_cons]
    exact ih _ (visStep_fst_nodup aIdx chunks st o h)

/-- C8 (amended): after `calculate_visible_players` runs for an entity
`A` (index `aIdx`, visible list `initList`, chunk DB values `chunks`),
a distinct Playing entity `B` is in A's visible list exactly when
`is_inside_chunk` accepts B's rounded position for some chunk of A's DB
— i.e. with chunk membership computed by Rust's truncating division, so
that chunk 0 covers the columns −15 … 15 of its axis, not the claim's
half-open 16-block window.  Hypotheses: Playing entities have distinct
indices and A's visible list is duplicate-free (both maintained by the
server: bevy indices are unique and the list only grows through the
guarded push). -/
theorem calculate_visible_players_mem_iff
    (aIdx : Nat) (chunks : List Chunk) (initList : List Nat)
    (others : List OtherPlayer) (b : OtherPlayer)
    (hb : b ∈ others)
    (hnodupIdx : (others.map OtherPlayer.index).Nodup)
    (hinit : initList.Nodup)
    (hba : aIdx ≠ b.index) :
    (b.index ∈ (calculate_visible_players aIdx chunks initList others).1 ↔
      is_inside_visible_chunks chunks b.x b.z = true) := by
  obtain ⟨l₁, l₂, rfl⟩ := List.append_of_mem hb
  have hmap : (l₁ ++ b :: l₂).map OtherPlayer.index =
      l₁.map OtherPlayer.index ++ b.index :: l₂.map OtherPlayer.index := by
    simp
  rw [hmap] at hnodupIdx
  obtain ⟨-, hcons, -⟩ := List.nodup_append.mp hnodupIdx
  have hb2 : b.index ∉ l₂.map OtherPlayer.index := (List.nodup_cons.mp hcons).1
  unfold calculate_visible_players
  rw [List.foldl_append, List.foldl_cons]
  have hnd1 : (l₁.foldl (visStep aIdx chunks) (initList, [])).1.Nodup :=
    foldl_visStep_nodup aIdx chunks l₁ (initList, []) (by simpa using hinit)
  rw [foldl_visStep_mem aIdx chunks l₂
    (fun o ho hoy => hb2 (by rw [← hoy]; exact List.mem_map_of_mem _ ho)) _]
  exact visStep_fst_self_mem aIdx chunks _ b hnd1 hba

/-- C8 counterexample: B stands at rounded position `(−1, 0)` and A's
DB holds exactly chunk `(0, 0)`.  The system puts B in A's visible list
(truncating division maps −1 to chunk 0), but no chunk of A's DB covers
`(−1, 0)` under the claim's `16*cx ≤ x < 16*cx + 16` semantics, so the
claimed equivalence fails for negative coordinates. -/
theorem calculate_visible_players_negative_x_counterexample :
    7 ∈ (calculate_visible_players 1 [chunk00] [] [⟨7, -1, 0⟩]).1 ∧
    ¬ (∃ c ∈ [chunk00], spec_chunk_covers c.chunk_x c.chunk_z (-1) 0) := by
  exact ⟨by decide, by decide⟩

/-- Witness for `calculate_visible_players_mem_iff` at a concrete state:
entity 7 at `(3, 4)` seen by entity 1 whose DB holds chunk `(0, 0)`. -/
theorem calculate_visible_players_mem_iff_witness :
    ((7 : Nat) ∈ (calculate_visible_players 1 [chunk00] [] [⟨7, 3, 4⟩]).1 ↔
      is_inside_visible_chunks [chunk00] 3 4 = true) :=
  calculate_visible_players_mem_iff 1 [chunk00] [] [⟨7, 3, 4⟩] ⟨7, 3, 4⟩
    (by decide) (by decide) (by decide) (by decide)

end Betalpha

